import Mathlib

/-!
Verification of the fund-monitoring ledger (`src/Main.py`) against its
specification.  The Python source is shallowly embedded: currency amounts
(Python floats) are modelled as rationals, `datetime.date` values as
year/month/day triples with Python's `toordinal` day numbering, and
`datetime.datetime` timestamps as rational hours.  SQLAlchemy tables are
modelled as Lean lists kept in insertion order (autoincrement ids are
strictly increasing along the list); each HTTP endpoint becomes a pure
function from the database state (plus the clock values Python reads via
`date.today()` / `datetime.now()`) to a new state and an optional error.
-/

namespace FundMonitor

/-- A Python `datetime.date`: a year/month/day triple.  Python compares
dates lexicographically on `(year, month, day)`. -/
structure PyDate where
  year : ℤ
  month : ℤ
  day : ℤ
deriving DecidableEq

/-- Python's strict `<` on dates: lexicographic on `(year, month, day)`. -/
def PyDate.lt (a b : PyDate) : Prop :=
  a.year < b.year ∨ (a.year = b.year ∧
    (a.month < b.month ∨ (a.month = b.month ∧ a.day < b.day)))

instance (a b : PyDate) : Decidable (PyDate.lt a b) :=
  inferInstanceAs (Decidable (a.year < b.year ∨ (a.year = b.year ∧
    (a.month < b.month ∨ (a.month = b.month ∧ a.day < b.day)))))

/-- Python `date.toordinal()`: the proleptic-Gregorian day number of a date
(Jan 1 of year 1 is day 1).  Subtracting two dates in Python yields the
difference of their ordinals, which is how `calculate_system_nav`
obtains `days_held`. -/
def PyDate.toordinal (dt : PyDate) : ℤ :=
  let y : ℤ := if dt.month ≤ 2 then dt.year - 1 else dt.year
  let era : ℤ := Int.fdiv y 400
  let yoe : ℤ := y - era * 400
  let mShift : ℤ := if 2 < dt.month then dt.month - 3 else dt.month + 9
  let doy : ℤ := Int.fdiv (153 * mShift + 2) 5 + dt.day - 1
  let doe : ℤ := yoe * 365 + Int.fdiv yoe 4 - Int.fdiv yoe 100 + doy
  era * 146097 + doe - 719468 + 719163

/-- Python's `round(x, n)` modelled over `ℚ`: round to `n` decimal places.
(Python rounds exact ties to even; no value examined in this file lies on
a tie, so round-half-up is used.) -/
def roundTo (n : ℕ) (x : ℚ) : ℚ :=
  (((x * 10 ^ n + 1 / 2).floor : ℤ) : ℚ) / 10 ^ n

/-- Rewriting `roundTo` in terms of `Int.floor`, for order reasoning. -/
theorem roundTo_eq (n : ℕ) (x : ℚ) :
    roundTo n x = ((⌊x * 10 ^ n + 1 / 2⌋ : ℤ) : ℚ) / 10 ^ n := by
  rw [roundTo, Rat.floor_def', Rat.floor_def]

/-- Monotonicity: `roundTo n`: rounding preserves `≤`. -/
theorem roundTo_mono (n : ℕ) {x y : ℚ} (h : x ≤ y) : roundTo n x ≤ roundTo n y := by
  rw [roundTo_eq, roundTo_eq]
  have hnum : (⌊x * 10 ^ n + 1 / 2⌋ : ℤ) ≤ ⌊y * 10 ^ n + 1 / 2⌋ := by
    apply Int.floor_mono
    have h10 : (0 : ℚ) ≤ 10 ^ n := by positivity
    nlinarith
  gcongr

/-- Small evaluation facts used when computing limits concretely. -/
theorem toNat_one : (1 : ℤ).toNat = 1 := rfl

theorem toNat_two : (2 : ℤ).toNat = 2 := rfl

/-- A row of the `transactions` table (class `DBTransaction`). -/
structure DBTransaction where
  id : ℕ
  tx_date : PyDate
  tx_type : String
  amount : ℚ
  description : String
deriving DecidableEq

/-- A row of the `requests` table (class `DBRequest`). -/
structure DBRequest where
  id : ℕ
  req_date : PyDate
  req_type : String
  amount : ℚ
  reason : String
  proof_image : Option String
  status : String
deriving DecidableEq

/-- A row of the `quarterly_events` table (class `DBQuarterlyEvent`).
`issued_at`/`claimed_at` timestamps are rational hours since an arbitrary
epoch (only differences against `datetime.now()` matter). -/
structure DBQuarterlyEvent where
  id : ℕ
  issued_at : ℚ
  status : String
  claimed_at : Option ℚ
deriving DecidableEq

/-- The persistent state the claims are about: the `transactions`,
`requests` and `quarterly_events` tables, each in insertion order. -/
structure FundState where
  transactions : List DBTransaction
  requests : List DBRequest
  events : List DBQuarterlyEvent
deriving DecidableEq

/-- The error vocabulary of the endpoints (the spec's names for the
`HTTPException`s raised by `Main.py`).  `ATTRIBUTE_ERROR` models an
unhandled Python `AttributeError` escaping an endpoint (an HTTP 500, not
a clean rejection); `NOT_FOUND` is raised only by the notice-deletion
endpoint, which has no claim attached. -/
inductive ApiError where
  | LIMIT_EXCEEDED
  | NO_ACTIVE_WINDOW
  | WINDOW_EXPIRED
  | INVALID_AMOUNT
  | NOT_FOUND
  | ATTRIBUTE_ERROR
deriving DecidableEq

/-- Outcome of one endpoint call: the database state after the call and
the error surfaced to the caller, if any.  (A `raise` after `db.commit()`
— as in the lazy-expiry path of `claim_quarterly` — leaves the committed
mutation in `state` while also reporting the error.) -/
structure StepResult where
  state : FundState
  error : Option ApiError
deriving DecidableEq

/-! ## Limit policy (`get_dynamic_monthly_limit`) -/

/-- The function `get_dynamic_monthly_limit` from `Main.py`, as a function of the
value Python reads from `date.today()`. -/
def get_dynamic_monthly_limit (today : PyDate) : ℚ :=
  let BASE_LIMIT : ℚ := 100
  if today.year < 2027 then BASE_LIMIT
  else
    let years_passed : ℤ := today.year - 2026
    let years_passed : ℤ :=
      if PyDate.lt today ⟨today.year, 4, 3⟩ then years_passed - 1 else years_passed
    if years_passed ≤ 0 then BASE_LIMIT
    else roundTo 2 (BASE_LIMIT * (11 / 10 : ℚ) ^ years_passed.toNat)

/-! ## Valuation engine (`calculate_system_nav`) -/

/-- The transaction kinds pooled as withdrawals by the NAV engine. -/
def wdKinds : List String := ["WITHDRAWAL", "QUARTERLY_PAYOUT", "ADJUST_DOWN"]

/-- The transaction kinds treated as inflows by the NAV engine. -/
def inKinds : List String := ["PRINCIPAL", "ALPHA", "ADJUST_UP"]

/-- The inflow kinds accumulated into `total_principal` (the rest go to
`total_alpha`). -/
def principalKinds : List String := ["PRINCIPAL", "ADJUST_UP"]

/-- The inner `while` loop of `calculate_system_nav`: consume the oldest
pending withdrawals from the front of the pool while any remain and the
inflow's `effective_amount` is still positive.  Returns the remaining
effective amount and the remaining pool. -/
def consume : ℚ → List ℚ → ℚ × List ℚ
  | eff, [] => (eff, [])
  | eff, w :: ws =>
    if 0 < eff then
      if w ≤ eff then consume (eff - w) ws
      else (0, (w - eff) :: ws)
    else (eff, w :: ws)

/-- What one iteration of the inflow loop of `calculate_system_nav`
records for one inflow: the post-FIFO remaining `effective_amount` and
the interest accrued on it. -/
structure InflowResult where
  tx : DBTransaction
  effective : ℚ
  interest : ℚ
deriving DecidableEq

/-- The inflow loop of `calculate_system_nav`.  `g d` stands for the
accrual factor `(1 + HURDLE_RATE) ** (d / 365.0) - 1` (HURDLE_RATE =
0.015): a transcendental real-valued function of the days held, kept
abstract; claims quantify over every `g` with the properties the
source's formula enjoys.  A future-dated inflow (`days_held < 0`) is
skipped and consumes nothing. -/
def navInflowResults (g : ℤ → ℚ) (currentOrd : ℤ) :
    List DBTransaction → List ℚ → List InflowResult
  | [], _ => []
  | t :: ts, pool =>
    if currentOrd - PyDate.toordinal t.tx_date < 0 then
      navInflowResults g currentOrd ts pool
    else
      ⟨t, (consume t.amount pool).1,
        (consume t.amount pool).1 * g (currentOrd - PyDate.toordinal t.tx_date)⟩ ::
        navInflowResults g currentOrd ts (consume t.amount pool).2

/-- Stable insertion of a transaction into a date-sorted list: `t` goes
in front of the first element with a strictly later date, hence after
every element whose date is `≤` its own. -/
def insTx (t : DBTransaction) : List DBTransaction → List DBTransaction
  | [] => [t]
  | u :: us =>
    if PyDate.toordinal u.tx_date < PyDate.toordinal t.tx_date then u :: insTx t us
    else t :: u :: us

/-- One admissible evaluation of the query
`order_by(DBTransaction.tx_date.asc())` (Main.py:119): a stable date
sort of the rows in insertion (id) order.  SQLite guarantees only that
the result is ascending by `tx_date`; the relative order of rows with
equal dates is undefined, and `DateSortedOf` below captures that full
contract.  The claims proved over `calculate_system_nav` (which uses
this evaluation) depend only on date-sortedness and on the multiset of
rows, never on the tie order — except where the tie order itself is
under scrutiny, which is settled against `DateSortedOf`. -/
def orderByDate : List DBTransaction → List DBTransaction
  | [] => []
  | t :: ts => insTx t (orderByDate ts)

/-- The `inflows` list of `calculate_system_nav`: the date-ordered transactions of
an inflow kind. -/
def inflowsOf (txs : List DBTransaction) : List DBTransaction :=
  (orderByDate txs).filter (fun t => decide (t.tx_type ∈ inKinds))

/-- The `withdrawals` pool of `calculate_system_nav`: the amounts of the
date-ordered transactions of a withdrawal kind. -/
def withdrawalsOf (txs : List DBTransaction) : List ℚ :=
  ((orderByDate txs).filter (fun t => decide (t.tx_type ∈ wdKinds))).map (fun t => t.amount)

/-- The per-inflow outcomes `calculate_system_nav` computes for a stored
history and an `as_of` date. -/
def navResultsFor (g : ℤ → ℚ) (txs : List DBTransaction) (current_date : PyDate) :
    List InflowResult :=
  navInflowResults g (PyDate.toordinal current_date) (inflowsOf txs) (withdrawalsOf txs)

/-- The dictionary returned by `calculate_system_nav`. -/
structure NavResult where
  R_total : ℚ
  effective_principal : ℚ
  total_alpha : ℚ
  total_compound_interest : ℚ
deriving DecidableEq

/-- The function `calculate_system_nav` from `Main.py`: FIFO lot-matching over the
history ordered by date, then accumulation of remaining principal,
remaining alpha and accrued interest, with the source's rounding. -/
def calculate_system_nav (g : ℤ → ℚ) (txs : List DBTransaction)
    (current_date : PyDate) : NavResult :=
  let results := navResultsFor g txs current_date
  let total_principal :=
    ((results.filter (fun r => decide (r.tx.tx_type ∈ principalKinds))).map
      (fun r => r.effective)).sum
  let total_alpha :=
    ((results.filter (fun r => !decide (r.tx.tx_type ∈ principalKinds))).map
      (fun r => r.effective)).sum
  let total_interest := (results.map (fun r => r.interest)).sum
  { R_total := roundTo 4 (total_principal + total_alpha + total_interest),
    effective_principal := roundTo 2 total_principal,
    total_alpha := roundTo 2 total_alpha,
    total_compound_interest := roundTo 4 total_interest }

/-- The pre-rounding value aggregated into `R_total`: the sum over the
processed inflows of remaining effective amount plus accrued interest. -/
def navTotal (g : ℤ → ℚ) (currentOrd : ℤ) (infl : List DBTransaction)
    (pool : List ℚ) : ℚ :=
  ((navInflowResults g currentOrd infl pool).map (fun r => r.effective + r.interest)).sum

/-- Claim C2: `monthly_limit` is a pure step function of the date: every
date before 2027-01-01 yields exactly 100; `monthly_limit(2027-04-02) =
100`, `monthly_limit(2027-04-03) = 110` (one 10% raise), and
`monthly_limit(2028-04-03) = 121` (two compounded raises, rounded to 2
decimals), the raise vesting only from April 3 of each year. -/
theorem monthly_limit_step_function :
    (∀ d : PyDate, PyDate.lt d ⟨2027, 1, 1⟩ → get_dynamic_monthly_limit d = 100) ∧
    get_dynamic_monthly_limit ⟨2027, 4, 2⟩ = 100 ∧
    get_dynamic_monthly_limit ⟨2027, 4, 3⟩ = 110 ∧
    get_dynamic_monthly_limit ⟨2028, 4, 3⟩ = 121 := by
  refine ⟨?_, by norm_num [get_dynamic_monthly_limit, PyDate.lt, roundTo_eq, toNat_one, toNat_two],
    by norm_num [get_dynamic_monthly_limit, PyDate.lt, roundTo_eq, toNat_one, toNat_two],
    by norm_num [get_dynamic_monthly_limit, PyDate.lt, roundTo_eq, toNat_one, toNat_two]⟩
  intro d hd
  have hd' : d.year < 2027 ∨ (d.year = 2027 ∧
      (d.month < 1 ∨ (d.month = 1 ∧ d.day < 1))) := hd
  unfold get_dynamic_monthly_limit
  rcases hd' with hy | ⟨hy, hmd⟩
  · simp [hy]
  · by_cases hlt : d.year < 2027
    · simp [hlt]
    · have hbefore : PyDate.lt d ⟨d.year, 4, 3⟩ := by
        right
        refine ⟨rfl, ?_⟩
        left
        show d.month < 4
        omega
      simp only [hlt, if_false, hbefore, if_true]
      have hle : d.year - 2026 - 1 ≤ 0 := by omega
      simp [hle]

/-- Witness for C2: a concrete date before 2027-01-01 is mapped to 100. -/
theorem monthly_limit_step_function_witness :
    get_dynamic_monthly_limit ⟨2026, 12, 31⟩ = 100 :=
  monthly_limit_step_function.1 ⟨2026, 12, 31⟩ (by decide)

/-! ## Claim C1: the FIFO lot-matching example -/

/-- Inflow A of the spec's FIFO example: amount 50 on day 0. -/
def txA : DBTransaction := ⟨1, ⟨2025, 1, 1⟩, "PRINCIPAL", 50, "inflow A"⟩

/-- The withdrawal of the FIFO example: amount 60 on day 5. -/
def txW : DBTransaction := ⟨2, ⟨2025, 1, 6⟩, "WITHDRAWAL", 60, "withdrawal"⟩

/-- Inflow B of the FIFO example: amount 50 on day 10. -/
def txB : DBTransaction := ⟨3, ⟨2025, 1, 11⟩, "PRINCIPAL", 50, "inflow B"⟩

/-- The FIFO example's stored history. -/
def historyC1 : List DBTransaction := [txA, txW, txB]

/-- Day 20 of the FIFO example. -/
def dayC1 : PyDate := ⟨2025, 1, 21⟩

/-- Claim C1: FIFO lot-matching.  With inflow A (50, day 0), inflow B
(50, day 10) and a withdrawal of 60 dated day 5, valuation at day 20
leaves A fully consumed (0 remaining, 0 interest) and B reduced to 40
remaining, with interest `40 * g 10` where `g` is the accrual factor
`(1.015) ** (days/365) - 1` — so B's interest is
`40 * ((1.015) ** (10/365) - 1)`.  Proved for every accrual function. -/
theorem nav_fifo_example (g : ℤ → ℚ) :
    navResultsFor g historyC1 dayC1 = [⟨txA, 0, 0⟩, ⟨txB, 40, 40 * g 10⟩] := by
  have hsort : inflowsOf historyC1 = [txA, txB] := by decide
  have hw : withdrawalsOf historyC1 = [60] := by decide
  have hdA : PyDate.toordinal dayC1 - PyDate.toordinal txA.tx_date = 20 := by decide
  have hdB : PyDate.toordinal dayC1 - PyDate.toordinal txB.tx_date = 10 := by decide
  have hcA : consume txA.amount [60] = (0, [10]) := by
    show consume 50 [60] = (0, [10])
    norm_num [consume]
  have hcB : consume txB.amount [10] = (40, []) := by
    show consume 50 [10] = (40, [])
    norm_num [consume]
  rw [navResultsFor, hsort, hw]
  rw [navInflowResults, if_neg (by rw [hdA]; norm_num), hcA, hdA]
  rw [navInflowResults, if_neg (by rw [hdB]; norm_num), hcB, hdB]
  rw [navInflowResults]
  norm_num

/-! ## Claim C5: processing order of the history -/

/-- Weak date precedence between transactions (the sort key of the
`order_by` clause). -/
def dateLE (a b : DBTransaction) : Prop :=
  PyDate.toordinal a.tx_date ≤ PyDate.toordinal b.tx_date

instance (a b : DBTransaction) : Decidable (dateLE a b) :=
  inferInstanceAs (Decidable (PyDate.toordinal a.tx_date ≤ PyDate.toordinal b.tx_date))

/-- Strict `(date, id)` lexicographic precedence between transactions. -/
def dateIdLT (a b : DBTransaction) : Prop :=
  PyDate.toordinal a.tx_date < PyDate.toordinal b.tx_date ∨
    (PyDate.toordinal a.tx_date = PyDate.toordinal b.tx_date ∧ a.id < b.id)

instance (a b : DBTransaction) : Decidable (dateIdLT a b) :=
  inferInstanceAs (Decidable (PyDate.toordinal a.tx_date < PyDate.toordinal b.tx_date ∨
    (PyDate.toordinal a.tx_date = PyDate.toordinal b.tx_date ∧ a.id < b.id)))

/-- The full contract of the query
`order_by(DBTransaction.tx_date.asc())`: any permutation of the stored
rows that is ascending by date may be returned.  SQLite leaves the
relative order of rows with equal `tx_date` values undefined (the query
names no further sort key), so every such list is an admissible result. -/
def DateSortedOf (txs l : List DBTransaction) : Prop :=
  l.Perm txs ∧ l.Pairwise dateLE

instance (txs l : List DBTransaction) : Decidable (DateSortedOf txs l) :=
  inferInstanceAs (Decidable (l.Perm txs ∧ l.Pairwise dateLE))

/-- Inserting preserves the multiset of rows. -/
theorem insTx_perm (t : DBTransaction) (l : List DBTransaction) :
    (insTx t l).Perm (t :: l) := by
  induction l with
  | nil => rfl
  | cons u us ih =>
    rw [insTx]
    split
    · exact (ih.cons u).trans (List.Perm.swap t u us)
    · exact List.Perm.refl _

theorem mem_insTx {x t : DBTransaction} {l : List DBTransaction} :
    x ∈ insTx t l ↔ x = t ∨ x ∈ l := by
  rw [(insTx_perm t l).mem_iff, List.mem_cons]

/-- Sorting preserves the multiset of rows: the engine processes the full
history. -/
theorem orderByDate_perm (txs : List DBTransaction) :
    (orderByDate txs).Perm txs := by
  induction txs with
  | nil => rfl
  | cons t ts ih => exact (insTx_perm t (orderByDate ts)).trans (ih.cons t)

/-- Inserting into a date-sorted list keeps it date-sorted. -/
theorem insTx_pairwise_le (t : DBTransaction) (l : List DBTransaction)
    (h : l.Pairwise dateLE) : (insTx t l).Pairwise dateLE := by
  induction l with
  | nil => simp [insTx]
  | cons u us ih =>
    rw [List.pairwise_cons] at h
    obtain ⟨hu, hus⟩ := h
    rw [insTx]
    split
    case isTrue hcond =>
      rw [List.pairwise_cons]
      refine ⟨?_, ih hus⟩
      intro v hv
      rcases mem_insTx.1 hv with rfl | hv'
      · exact le_of_lt hcond
      · exact hu v hv'
    case isFalse hcond =>
      rw [List.pairwise_cons]
      refine ⟨?_, List.pairwise_cons.2 ⟨hu, hus⟩⟩
      intro v hv
      rcases List.mem_cons.1 hv with rfl | hv'
      · exact not_lt.1 hcond
      · exact le_trans (not_lt.1 hcond) (hu v hv')

/-- The sorted history is date-sorted. -/
theorem orderByDate_pairwise_le (txs : List DBTransaction) :
    (orderByDate txs).Pairwise dateLE := by
  induction txs with
  | nil => exact List.Pairwise.nil
  | cons t ts ih => exact insTx_pairwise_le t (orderByDate ts) ih

/-- The body of `calculate_system_nav` applied to a given query result
`sorted` (partition into withdrawal pool and inflows, FIFO loop,
accumulation, rounding), so that the computation can be examined on any
list satisfying the query's contract.  `calculate_system_nav` is this
pipeline applied to the model's stable evaluation of the query. -/
def calculate_system_nav_on (g : ℤ → ℚ) (sorted : List DBTransaction)
    (current_date : PyDate) : NavResult :=
  let results := navInflowResults g (PyDate.toordinal current_date)
    (sorted.filter (fun t => decide (t.tx_type ∈ inKinds)))
    ((sorted.filter (fun t => decide (t.tx_type ∈ wdKinds))).map (fun t => t.amount))
  let total_principal :=
    ((results.filter (fun r => decide (r.tx.tx_type ∈ principalKinds))).map
      (fun r => r.effective)).sum
  let total_alpha :=
    ((results.filter (fun r => !decide (r.tx.tx_type ∈ principalKinds))).map
      (fun r => r.effective)).sum
  let total_interest := (results.map (fun r => r.interest)).sum
  { R_total := roundTo 4 (total_principal + total_alpha + total_interest),
    effective_principal := roundTo 2 total_principal,
    total_alpha := roundTo 2 total_alpha,
    total_compound_interest := roundTo 4 total_interest }

/-- Unfolding: `calculate_system_nav` is the pipeline applied to the
stable evaluation of the query. -/
theorem calculate_system_nav_eq_on (g : ℤ → ℚ) (txs : List DBTransaction)
    (d : PyDate) :
    calculate_system_nav g txs d = calculate_system_nav_on g (orderByDate txs) d :=
  rfl

/-! ## Claim C3: monotonicity of NAV in the valuation date -/

/-- The remaining effective amount is non-negative when the inflow's
amount is. -/
theorem consume_nonneg : ∀ (pool : List ℚ) (eff : ℚ), 0 ≤ eff →
    0 ≤ (consume eff pool).1
  | [], eff, h => h
  | w :: ws, eff, h => by
    rw [consume]
    split
    case isTrue hp =>
      split
      case isTrue hw => exact consume_nonneg ws (eff - w) (by linarith)
      case isFalse hw => norm_num
    case isFalse hp => exact h

theorem navTotal_nil (g : ℤ → ℚ) (o : ℤ) (pool : List ℚ) :
    navTotal g o [] pool = 0 := by
  simp [navTotal, navInflowResults]

theorem navTotal_cons_skip (g : ℤ → ℚ) (o : ℤ) (t : DBTransaction)
    (ts : List DBTransaction) (pool : List ℚ)
    (h : o - PyDate.toordinal t.tx_date < 0) :
    navTotal g o (t :: ts) pool = navTotal g o ts pool := by
  simp [navTotal, navInflowResults, h]

theorem navTotal_cons_incl (g : ℤ → ℚ) (o : ℤ) (t : DBTransaction)
    (ts : List DBTransaction) (pool : List ℚ)
    (h : ¬ o - PyDate.toordinal t.tx_date < 0) :
    navTotal g o (t :: ts) pool =
      ((consume t.amount pool).1 +
        (consume t.amount pool).1 * g (o - PyDate.toordinal t.tx_date)) +
        navTotal g o ts (consume t.amount pool).2 := by
  simp [navTotal, navInflowResults, h]

/-- Inflows that all lie strictly after the valuation date contribute
nothing (and consume nothing). -/
theorem navTotal_zero (g : ℤ → ℚ) (o : ℤ) :
    ∀ (infl : List DBTransaction),
      (∀ t ∈ infl, o - PyDate.toordinal t.tx_date < 0) →
      ∀ pool, navTotal g o infl pool = 0
  | [], _, pool => navTotal_nil g o pool
  | t :: ts, h, pool => by
    rw [navTotal_cons_skip g o t ts pool (h t (List.mem_cons_self t ts))]
    exact navTotal_zero g o ts (fun u hu => h u (List.mem_cons_of_mem t hu)) pool

/-- With a non-negative accrual factor and non-negative inflow amounts,
the pre-rounding NAV is non-negative (for every withdrawal pool). -/
theorem navTotal_nonneg (g : ℤ → ℚ) (hg0 : ∀ d : ℤ, 0 ≤ d → 0 ≤ g d) (o : ℤ) :
    ∀ (infl : List DBTransaction), (∀ t ∈ infl, 0 ≤ t.amount) →
      ∀ pool, 0 ≤ navTotal g o infl pool := by
  intro infl
  induction infl with
  | nil => intro _ pool; rw [navTotal_nil]
  | cons t ts ih =>
    intro hamt pool
    have hamt' : ∀ u ∈ ts, 0 ≤ u.amount :=
      fun u hu => hamt u (List.mem_cons_of_mem t hu)
    by_cases h : o - PyDate.toordinal t.tx_date < 0
    · rw [navTotal_cons_skip g o t ts pool h]
      exact ih hamt' pool
    · rw [navTotal_cons_incl g o t ts pool h]
      have heff : 0 ≤ (consume t.amount pool).1 :=
        consume_nonneg pool t.amount (hamt t (List.mem_cons_self t ts))
      have hgd : 0 ≤ g (o - PyDate.toordinal t.tx_date) := hg0 _ (by omega)
      have hrest := ih hamt' ((consume t.amount pool).2)
      nlinarith [mul_nonneg heff hgd]

/-- Core monotonicity: on a date-sorted inflow list with non-negative
amounts, the pre-rounding NAV is monotone in the valuation day, for any
withdrawal pool and any non-negative monotone accrual factor. -/
theorem navTotal_mono (g : ℤ → ℚ) (hg0 : ∀ d : ℤ, 0 ≤ d → 0 ≤ g d)
    (hgm : ∀ d e : ℤ, 0 ≤ d → d ≤ e → g d ≤ g e) :
    ∀ (infl : List DBTransaction), infl.Pairwise dateLE →
      (∀ t ∈ infl, 0 ≤ t.amount) →
      ∀ (pool : List ℚ) (a b : ℤ), a ≤ b →
      navTotal g a infl pool ≤ navTotal g b infl pool := by
  intro infl
  induction infl with
  | nil => intro _ _ pool a b _; rw [navTotal_nil, navTotal_nil]
  | cons t ts ih =>
    intro hsort hamt pool a b hab
    rw [List.pairwise_cons] at hsort
    obtain ⟨hhead, htail⟩ := hsort
    have hamt_t : 0 ≤ t.amount := hamt t (List.mem_cons_self t ts)
    have hamt' : ∀ u ∈ ts, 0 ≤ u.amount :=
      fun u hu => hamt u (List.mem_cons_of_mem t hu)
    by_cases hA : a - PyDate.toordinal t.tx_date < 0
    · rw [navTotal_cons_skip g a t ts pool hA]
      by_cases hB : b - PyDate.toordinal t.tx_date < 0
      · rw [navTotal_cons_skip g b t ts pool hB]
        exact ih htail hamt' pool a b hab
      · rw [navTotal_cons_incl g b t ts pool hB]
        have hzero : navTotal g a ts pool = 0 := by
          apply navTotal_zero
          intro u hu
          have := hhead u hu
          have : PyDate.toordinal t.tx_date ≤ PyDate.toordinal u.tx_date := this
          omega
        rw [hzero]
        have heff : 0 ≤ (consume t.amount pool).1 :=
          consume_nonneg pool t.amount hamt_t
        have hgd : 0 ≤ g (b - PyDate.toordinal t.tx_date) := hg0 _ (by omega)
        have hrest := navTotal_nonneg g hg0 b ts hamt' ((consume t.amount pool).2)
        nlinarith [mul_nonneg heff hgd]
    · have hB : ¬ b - PyDate.toordinal t.tx_date < 0 := by omega
      rw [navTotal_cons_incl g a t ts pool hA, navTotal_cons_incl g b t ts pool hB]
      have heff : 0 ≤ (consume t.amount pool).1 :=
        consume_nonneg pool t.amount hamt_t
      have hg_le : g (a - PyDate.toordinal t.tx_date) ≤
          g (b - PyDate.toordinal t.tx_date) := hgm _ _ (by omega) (by omega)
      have hrec := ih htail hamt' ((consume t.amount pool).2) a b hab
      nlinarith [mul_nonneg heff (sub_nonneg.2 hg_le)]

theorem sum_filter_add_sum_filter_not (rs : List InflowResult)
    (p : InflowResult → Bool) (f : InflowResult → ℚ) :
    ((rs.filter p).map f).sum + ((rs.filter (fun r => !p r)).map f).sum =
      (rs.map f).sum := by
  induction rs with
  | nil => simp
  | cons r rs ih =>
    by_cases h : p r
    · simp [List.filter_cons, h]
      linarith [ih]
    · simp [List.filter_cons, h]
      linarith [ih]

theorem sum_map_add (rs : List InflowResult) (f h : InflowResult → ℚ) :
    (rs.map (fun r => f r + h r)).sum = (rs.map f).sum + (rs.map h).sum := by
  induction rs with
  | nil => simp
  | cons r rs ih => simp only [List.map_cons, List.sum_cons, ih]; ring

/-- Unfolding: `R_total` is the rounded pre-rounding total. -/
theorem R_total_eq (g : ℤ → ℚ) (txs : List DBTransaction) (d : PyDate) :
    (calculate_system_nav g txs d).R_total =
      roundTo 4 (navTotal g (PyDate.toordinal d) (inflowsOf txs) (withdrawalsOf txs)) := by
  simp only [calculate_system_nav]
  rw [navTotal, ← navResultsFor]
  congr 1
  rw [sum_map_add, sum_filter_add_sum_filter_not]

/-- Claim C3 (amended): for a fixed history all of whose inflow
transactions (kinds PRINCIPAL, ALPHA, ADJUST_UP) have non-negative
amounts, and any accrual factor that is non-negative and monotone on
non-negative day counts — as `(1.015) ** (d/365) - 1` is — `R_total` is
monotonically non-decreasing in the valuation date.  (As literally
stated over *every* history the claim fails: the endpoints can record a
negative-amount inflow, whose accruing interest drives `R_total`
down; see the counterexample.) -/
theorem nav_monotone_of_nonneg (g : ℤ → ℚ)
    (hg0 : ∀ d : ℤ, 0 ≤ d → 0 ≤ g d)
    (hgm : ∀ d e : ℤ, 0 ≤ d → d ≤ e → g d ≤ g e)
    (txs : List DBTransaction)
    (hamt : ∀ t ∈ txs, t.tx_type ∈ inKinds → 0 ≤ t.amount)
    (d1 d2 : PyDate) (h12 : PyDate.toordinal d1 ≤ PyDate.toordinal d2) :
    (calculate_system_nav g txs d1).R_total ≤ (calculate_system_nav g txs d2).R_total := by
  rw [R_total_eq, R_total_eq]
  apply roundTo_mono
  apply navTotal_mono g hg0 hgm (inflowsOf txs) ?hsort ?hamts (withdrawalsOf txs) _ _ h12
  case hsort =>
    exact (orderByDate_pairwise_le txs).sublist (List.filter_sublist _)
  case hamts =>
    intro t ht
    rw [inflowsOf, List.mem_filter] at ht
    obtain ⟨hmem, hp⟩ := ht
    exact hamt t ((orderByDate_perm txs).mem_iff.1 hmem) (by simpa using hp)

/-- A concrete accrual factor with the properties of the source's
`(1.015) ** (d/365) - 1` that are used by the claims: zero at day 0,
non-negative and monotone for non-negative day counts. -/
def gcx : ℤ → ℚ := fun d => if d ≤ 0 then 0 else 1

theorem gcx_nonneg : ∀ d : ℤ, 0 ≤ d → 0 ≤ gcx d := by
  intro d _
  rw [gcx]
  split <;> norm_num

theorem gcx_mono : ∀ d e : ℤ, 0 ≤ d → d ≤ e → gcx d ≤ gcx e := by
  intro d e _ hde
  by_cases h1 : d ≤ 0
  · simp only [gcx, h1, if_true]
    split <;> norm_num
  · have h2 : ¬ e ≤ 0 := by omega
    simp [gcx, h1, h2]

/-- The negative-amount inflow the injection endpoint can record. -/
def txNeg : DBTransaction := ⟨1, ⟨2025, 1, 1⟩, "PRINCIPAL", -100, "negative inflow"⟩

/-- Counterexample to C3 as stated: over arbitrary stored histories,
NAV monotonicity in the valuation date fails — a history holding a
single PRINCIPAL inflow of amount −100 (which `inject_funds` accepts
unvalidated) has `R_total = −100` on its own date but `R_total = −200`
one day later under an accrual factor with all the properties of the
source's formula. -/
theorem nav_monotone_cex :
    ¬ (∀ g : ℤ → ℚ, (∀ d : ℤ, 0 ≤ d → 0 ≤ g d) →
        (∀ d e : ℤ, 0 ≤ d → d ≤ e → g d ≤ g e) →
        ∀ (txs : List DBTransaction) (d1 d2 : PyDate),
          PyDate.toordinal d1 ≤ PyDate.toordinal d2 →
          (calculate_system_nav g txs d1).R_total ≤
            (calculate_system_nav g txs d2).R_total) := by
  intro h
  have ho1 : PyDate.toordinal ⟨2025, 1, 1⟩ - PyDate.toordinal txNeg.tx_date = 0 := by decide
  have ho2 : PyDate.toordinal ⟨2025, 1, 2⟩ - PyDate.toordinal txNeg.tx_date = 1 := by decide
  have hin : inflowsOf [txNeg] = [txNeg] := by decide
  have hwd : withdrawalsOf [txNeg] = [] := by decide
  have hc : consume txNeg.amount [] = (-100, []) := rfl
  have hA : (calculate_system_nav gcx [txNeg] ⟨2025, 1, 1⟩).R_total = -100 := by
    rw [R_total_eq, hin, hwd,
      navTotal_cons_incl gcx _ txNeg [] [] (by rw [ho1]; norm_num), hc, ho1,
      navTotal_nil, roundTo_eq]
    norm_num [gcx]
  have hB : (calculate_system_nav gcx [txNeg] ⟨2025, 1, 2⟩).R_total = -200 := by
    rw [R_total_eq, hin, hwd,
      navTotal_cons_incl gcx _ txNeg [] [] (by rw [ho2]; norm_num), hc, ho2,
      navTotal_nil, roundTo_eq]
    norm_num [gcx]
  have hmono := h gcx gcx_nonneg gcx_mono [txNeg] ⟨2025, 1, 1⟩ ⟨2025, 1, 2⟩ (by decide)
  rw [hA, hB] at hmono
  norm_num at hmono

/-- Witness for the amended C3 at the FIFO example history (all
amounts non-negative) and a concrete pair of ordered dates. -/
theorem nav_monotone_of_nonneg_witness :
    (calculate_system_nav gcx historyC1 ⟨2025, 1, 21⟩).R_total ≤
      (calculate_system_nav gcx historyC1 ⟨2025, 1, 22⟩).R_total :=
  nav_monotone_of_nonneg gcx gcx_nonneg gcx_mono historyC1 (by decide)
    ⟨2025, 1, 21⟩ ⟨2025, 1, 22⟩ (by decide)

/-! ## Endpoint operations on the stored state

Each endpoint takes the clock values Python reads (`date.today()` as
`today`, `datetime.now()` as rational hours `now`) as explicit
arguments; autoincrement ids are assigned as `length + 1`, which matches
SQLite's rowid assignment for these tables, from which rows are never
deleted. -/

/-- Mutating the row returned by `order_by(desc(id)).first()`: the last
row in insertion order. -/
def updateLast {α : Type} (f : α → α) : List α → List α
  | [] => []
  | [a] => [f a]
  | a :: b :: rest => a :: updateLast f (b :: rest)

/-- The function `get_current_month_used`: this month's WITHDRAWAL transactions plus
this month's PENDING withdrawal requests. -/
def get_current_month_used (txs : List DBTransaction) (reqs : List DBRequest)
    (today : PyDate) : ℚ :=
  ((txs.filter (fun t => decide (t.tx_type = "WITHDRAWAL" ∧
      t.tx_date.year = today.year ∧ t.tx_date.month = today.month))).map
    (fun t => t.amount)).sum +
  ((reqs.filter (fun r => decide (r.req_type = "WITHDRAWAL_REQ" ∧
      r.status = "PENDING" ∧
      r.req_date.year = today.year ∧ r.req_date.month = today.month))).map
    (fun r => r.amount)).sum

/-- The PENDING row a withdrawal request inserts. -/
def withdrawalReqRow (st : FundState) (today : PyDate) (amount : ℚ)
    (reason : String) : DBRequest :=
  ⟨st.requests.length + 1, today, "WITHDRAWAL_REQ", amount, reason, none, "PENDING"⟩

/-- Endpoint `POST /api/v1/lp/request_withdrawal`. -/
def lp_request_withdrawal (st : FundState) (today : PyDate) (amount : ℚ)
    (reason : String) : StepResult :=
  if get_dynamic_monthly_limit today <
      get_current_month_used st.transactions st.requests today + amount then
    ⟨st, some ApiError.LIMIT_EXCEEDED⟩
  else
    ⟨{ st with requests := st.requests ++ [withdrawalReqRow st today amount reason] }, none⟩

/-- The PENDING row an alpha request inserts (zero placeholder amount,
opaque proof path). -/
def alphaReqRow (st : FundState) (today : PyDate) (reason : String)
    (filename : String) : DBRequest :=
  ⟨st.requests.length + 1, today, "ALPHA_REQ", 0, reason, some ("uploads/" ++ filename), "PENDING"⟩

/-- Endpoint `POST /api/v1/lp/request_alpha`. -/
def lp_request_alpha (st : FundState) (today : PyDate) (reason : String)
    (filename : String) : StepResult :=
  ⟨{ st with requests := st.requests ++ [alphaReqRow st today reason filename] }, none⟩

/-- Endpoint `POST /api/v1/gp/inject_funds`: no validation of the amount or the
kind. -/
def gp_inject_funds (st : FundState) (today : PyDate) (amount : ℚ)
    (tx_type : String) (description : String) : StepResult :=
  ⟨{ st with transactions := st.transactions ++ [⟨st.transactions.length + 1, today, tx_type, amount, description⟩] }, none⟩

/-- The transaction an adjustment records. -/
def adjustTx (st : FundState) (today : PyDate) (action : String) (amount : ℚ)
    (description : String) : DBTransaction :=
  ⟨st.transactions.length + 1, today, if action = "UP" then "ADJUST_UP" else "ADJUST_DOWN", amount, "【上帝模式强控】" ++ description⟩

/-- Endpoint `POST /api/v1/gp/adjust_funds`: positive amounts only; any `action`
other than `"UP"` produces an ADJUST_DOWN transaction. -/
def gp_adjust_funds (st : FundState) (today : PyDate) (action : String)
    (amount : ℚ) (description : String) : StepResult :=
  if amount ≤ 0 then ⟨st, some ApiError.INVALID_AMOUNT⟩
  else
    ⟨{ st with transactions := st.transactions ++ [adjustTx st today action amount description] }, none⟩

/-- The optional annotation appended to a rejected request's reason. -/
def appendRejection (reason reject_reason : String) : String :=
  if reject_reason = "" then reason
  else reason ++ " 【GP驳回: " ++ reject_reason ++ "】"

/-- Mutating the row `filter(id == req_id).first()` returned. -/
def updateFirstReq (req_id : ℕ) (f : DBRequest → DBRequest) :
    List DBRequest → List DBRequest
  | [] => []
  | r :: rs => if r.id = req_id then f r :: rs else r :: updateFirstReq req_id f rs

/-- The REJECT branch's mutation of the adjudicated request. -/
def rejectUpd (reject_reason : String) (r : DBRequest) : DBRequest :=
  { r with status := "REJECTED", amount := 0, reason := appendRejection r.reason reject_reason }

/-- The APPROVE branch's mutation of the adjudicated request: alpha
requests additionally take the GP-supplied final amount. -/
def approveUpd (isAlpha : Bool) (final_amount : ℚ) (r : DBRequest) : DBRequest :=
  if isAlpha then { r with status := "APPROVED", amount := final_amount }
  else { r with status := "APPROVED" }

/-- The transaction appended on approval. -/
def approveTx (st : FundState) (today : PyDate) (req : DBRequest)
    (final_amount : ℚ) : DBTransaction :=
  ⟨st.transactions.length + 1, today,
    if req.req_type = "WITHDRAWAL_REQ" then "WITHDRAWAL" else "ALPHA",
    if req.req_type = "ALPHA_REQ" then final_amount else req.amount,
    "审计批准: " ++ req.reason⟩

/-- Endpoint `POST /api/v1/gp/process_request/req_id`.  When no request
matches `req_id`, `first()` returns `None` and the REJECT/APPROVE
branches dereference it: an unhandled `AttributeError` (HTTP 500), with
nothing committed; any other action falls through to an empty commit and
a success message. -/
def gp_process_request (st : FundState) (today : PyDate) (req_id : ℕ)
    (action : String) (final_amount : ℚ) (reject_reason : String) : StepResult :=
  match st.requests.find? (fun r => r.id == req_id) with
  | none =>
    if action = "REJECT" ∨ action = "APPROVE" then ⟨st, some ApiError.ATTRIBUTE_ERROR⟩
    else ⟨st, none⟩
  | some req =>
    if action = "REJECT" then
      ⟨{ st with requests := updateFirstReq req_id (rejectUpd reject_reason) st.requests }, none⟩
    else if action = "APPROVE" then
      ⟨{ st with requests := updateFirstReq req_id (approveUpd (req.req_type = "ALPHA_REQ") final_amount) st.requests, transactions := st.transactions ++ [approveTx st today req final_amount] }, none⟩
    else ⟨st, none⟩

/-- Setting an event's status to EXPIRED (keeping everything else). -/
def expireEvent (e : DBQuarterlyEvent) : DBQuarterlyEvent :=
  { e with status := "EXPIRED" }

/-- Setting an event's status to CLAIMED with the claim timestamp. -/
def claimEvent (now : ℚ) (e : DBQuarterlyEvent) : DBQuarterlyEvent :=
  { e with status := "CLAIMED", claimed_at := some now }

/-- The loop of `toggle_quarterly`: every ACTIVE event is expired. -/
def toggleExpire (e : DBQuarterlyEvent) : DBQuarterlyEvent :=
  if e.status = "ACTIVE" then expireEvent e else e

/-- Endpoint `POST /api/v1/gp/toggle_quarterly`: expire every ACTIVE event, then
insert a fresh ACTIVE event issued now. -/
def toggle_quarterly (st : FundState) (now : ℚ) : StepResult :=
  ⟨{ st with events := (st.events.map toggleExpire) ++ [⟨st.events.length + 1, now, "ACTIVE", none⟩] }, none⟩

/-- The QUARTERLY_PAYOUT transaction appended by a successful claim. -/
def payoutTx (st : FundState) (today : PyDate) : DBTransaction :=
  ⟨st.transactions.length + 1, today, "QUARTERLY_PAYOUT", 30, "季度法定流动性派发提取"⟩

/-- Endpoint `POST /api/v1/lp/claim_quarterly`. -/
def claim_quarterly (st : FundState) (now : ℚ) (today : PyDate) : StepResult :=
  match st.events.getLast? with
  | none => ⟨st, some ApiError.NO_ACTIVE_WINDOW⟩
  | some event =>
    if event.status ≠ "ACTIVE" then ⟨st, some ApiError.NO_ACTIVE_WINDOW⟩
    else if event.issued_at + 72 < now then
      ⟨{ st with events := updateLast expireEvent st.events }, some ApiError.WINDOW_EXPIRED⟩
    else
      ⟨{ st with events := updateLast (claimEvent now) st.events, transactions := st.transactions ++ [payoutTx st today] }, none⟩

/-- The display fields `get_quarterly_info` reports (the timestamp
strings it also formats carry no further information). -/
structure QuarterlyInfo where
  status : String
  hours_left : ℚ
  show_expired : Bool
deriving DecidableEq

/-- The function `get_quarterly_info`: reading the latest event lazily commits the
ACTIVE → EXPIRED transition once 72 hours have elapsed; an expired event
is displayed for a further 72-hour grace window. -/
def get_quarterly_info (st : FundState) (now : ℚ) : FundState × QuarterlyInfo :=
  match st.events.getLast? with
  | none => (st, ⟨"INACTIVE", 0, false⟩)
  | some event =>
    if event.status = "ACTIVE" ∧ event.issued_at + 72 < now then
      ({ st with events := updateLast expireEvent st.events }, ⟨"EXPIRED", 0, decide (now ≤ event.issued_at + 72 + 72)⟩)
    else if event.status = "ACTIVE" then
      (st, ⟨"ACTIVE", roundTo 1 (max 0 (event.issued_at + 72 - now)), false⟩)
    else if event.status = "EXPIRED" then
      (st, ⟨"EXPIRED", 0, decide (now ≤ event.issued_at + 72 + 72)⟩)
    else (st, ⟨event.status, 0, false⟩)

/-- The empty database the app starts from. -/
def initialState : FundState := ⟨[], [], []⟩

/-- States reachable from the empty database through the endpoints. -/
inductive Reachable : FundState → Prop where
  | init : Reachable initialState
  | withdraw (st : FundState) (today : PyDate) (amount : ℚ) (reason : String) :
      Reachable st → Reachable (lp_request_withdrawal st today amount reason).state
  | alpha (st : FundState) (today : PyDate) (reason filename : String) :
      Reachable st → Reachable (lp_request_alpha st today reason filename).state
  | inject (st : FundState) (today : PyDate) (amount : ℚ) (tx_type descr : String) :
      Reachable st → Reachable (gp_inject_funds st today amount tx_type descr).state
  | adjust (st : FundState) (today : PyDate) (action : String) (amount : ℚ) (descr : String) :
      Reachable st → Reachable (gp_adjust_funds st today action amount descr).state
  | toggle (st : FundState) (now : ℚ) :
      Reachable st → Reachable (toggle_quarterly st now).state
  | claim (st : FundState) (now : ℚ) (today : PyDate) :
      Reachable st → Reachable (claim_quarterly st now today).state
  | info (st : FundState) (now : ℚ) :
      Reachable st → Reachable (get_quarterly_info st now).1
  | adjudicate (st : FundState) (today : PyDate) (req_id : ℕ) (action : String)
      (final_amount : ℚ) (reject_reason : String) :
      Reachable st → Reachable (gp_process_request st today req_id action
        final_amount reject_reason).state

/-! ## Claim C4: the monthly withdrawal ceiling -/

/-- Claim C4: a withdrawal request exactly at the boundary
(`month_used + amount = limit`) inserts a PENDING row, while one
strictly over the limit fails with LIMIT_EXCEEDED and creates no row,
where `month_used` counts this month's WITHDRAWAL transactions plus
this month's PENDING withdrawal requests. -/
theorem withdrawal_request_boundary (st : FundState) (today : PyDate)
    (amount : ℚ) (reason : String) :
    (get_current_month_used st.transactions st.requests today + amount =
        get_dynamic_monthly_limit today →
      lp_request_withdrawal st today amount reason =
        ⟨{ st with requests := st.requests ++ [withdrawalReqRow st today amount reason] }, none⟩) ∧
    (get_dynamic_monthly_limit today <
        get_current_month_used st.transactions st.requests today + amount →
      lp_request_withdrawal st today amount reason =
        ⟨st, some ApiError.LIMIT_EXCEEDED⟩) := by
  constructor
  · intro hEq
    rw [lp_request_withdrawal, if_neg]
    rw [hEq]
    exact lt_irrefl _
  · intro hGt
    rw [lp_request_withdrawal, if_pos hGt]

/-- Witness for C4: on the empty database (limit 100, nothing used), a
request for exactly 100 is inserted and a request for 101 is rejected. -/
theorem withdrawal_request_boundary_witness :
    lp_request_withdrawal initialState ⟨2025, 1, 1⟩ 100 "travel" =
      ⟨{ initialState with requests := initialState.requests ++ [withdrawalReqRow initialState ⟨2025, 1, 1⟩ 100 "travel"] }, none⟩ ∧
    lp_request_withdrawal initialState ⟨2025, 1, 1⟩ 101 "travel" =
      ⟨initialState, some ApiError.LIMIT_EXCEEDED⟩ :=
  ⟨(withdrawal_request_boundary initialState ⟨2025, 1, 1⟩ 100 "travel").1
      (by norm_num [get_current_month_used, get_dynamic_monthly_limit, initialState]),
    (withdrawal_request_boundary initialState ⟨2025, 1, 1⟩ 101 "travel").2
      (by norm_num [get_current_month_used, get_dynamic_monthly_limit, initialState])⟩

/-! ## Claim C8: adjudicating a nonexistent request id -/

/-- Claim C8 (the intended behavior is a clean NOT_FOUND rejection; the
code instead dereferences `None`): for every id with no matching request
row, APPROVE and REJECT both abort with an unhandled `AttributeError`
(HTTP 500) before any commit — so no transaction or row is written and
the state is unchanged, but the failure is a server error, not a
NOT_FOUND rejection. -/
theorem process_request_missing_id (st : FundState) (today : PyDate)
    (req_id : ℕ) (final_amount : ℚ) (reject_reason : String)
    (h : st.requests.find? (fun r => r.id == req_id) = none) :
    gp_process_request st today req_id "APPROVE" final_amount reject_reason =
      ⟨st, some ApiError.ATTRIBUTE_ERROR⟩ ∧
    gp_process_request st today req_id "REJECT" final_amount reject_reason =
      ⟨st, some ApiError.ATTRIBUTE_ERROR⟩ := by
  constructor <;> simp [gp_process_request, h]

/-- Witness for C8: adjudicating id 1 on the empty database. -/
theorem process_request_missing_id_witness :
    gp_process_request initialState ⟨2025, 1, 1⟩ 1 "APPROVE" 0 "" =
      ⟨initialState, some ApiError.ATTRIBUTE_ERROR⟩ ∧
    gp_process_request initialState ⟨2025, 1, 1⟩ 1 "REJECT" 0 "" =
      ⟨initialState, some ApiError.ATTRIBUTE_ERROR⟩ :=
  process_request_missing_id initialState ⟨2025, 1, 1⟩ 1 0 "" rfl

/-! ## Claims C9 and C10: amounts recorded by the GP endpoints -/

/-- Counterexample to C9 as stated: `inject_funds` performs no amount
validation, so injecting −5 records a transaction with a negative
amount. -/
theorem inject_negative_amount_cex :
    (gp_inject_funds initialState ⟨2025, 1, 1⟩ (-5) "PRINCIPAL" "cash").state.transactions =
      [⟨1, ⟨2025, 1, 1⟩, "PRINCIPAL", -5, "cash"⟩] ∧
    ¬ (0 : ℚ) ≤ -5 := by
  constructor
  · rfl
  · norm_num

/-- The transactions appended by a claim are unchanged or extended by
the fixed payout. -/
theorem claim_quarterly_transactions (st : FundState) (now : ℚ) (today : PyDate) :
    (claim_quarterly st now today).state.transactions = st.transactions ∨
    (claim_quarterly st now today).state.transactions =
      st.transactions ++ [payoutTx st today] := by
  cases hev : st.events.getLast? with
  | none => rw [claim_quarterly, hev]; exact Or.inl rfl
  | some ev =>
    rw [claim_quarterly, hev]
    dsimp only
    split
    · exact Or.inl rfl
    · split
      · exact Or.inl rfl
      · exact Or.inr rfl

/-- Claim C9 (amended): the adjustment and claim endpoints only record
non-negative amounts (adjust validates `amount > 0`; the claim payout is
the fixed 30.0) — but `inject_funds` and request approval record the
caller-supplied amount unvalidated, so a transaction with negative
amount is possible (see the counterexample). -/
theorem adjust_claim_txs_nonneg (st : FundState) (today : PyDate) (now : ℚ)
    (action : String) (amount : ℚ) (descr : String) :
    (∀ t ∈ (gp_adjust_funds st today action amount descr).state.transactions,
      t ∈ st.transactions ∨ 0 ≤ t.amount) ∧
    (∀ t ∈ (claim_quarterly st now today).state.transactions,
      t ∈ st.transactions ∨ 0 ≤ t.amount) := by
  constructor
  · intro t ht
    rw [gp_adjust_funds] at ht
    by_cases h : amount ≤ 0
    · rw [if_pos h] at ht
      exact Or.inl ht
    · rw [if_neg h] at ht
      rcases List.mem_append.1 ht with h1 | h2
      · exact Or.inl h1
      · right
        have h3 : t = adjustTx st today action amount descr := by simpa using h2
        rw [h3, adjustTx]
        exact le_of_lt (not_le.1 h)
  · intro t ht
    rcases claim_quarterly_transactions st now today with hT | hT
    · rw [hT] at ht
      exact Or.inl ht
    · rw [hT] at ht
      rcases List.mem_append.1 ht with h1 | h2
      · exact Or.inl h1
      · right
        have h3 : t = payoutTx st today := by simpa using h2
        rw [h3, payoutTx]
        norm_num

/-- Witness for the amended C9: the ADJUST_DOWN row recorded by a
concrete adjustment is accounted for. -/
theorem adjust_claim_txs_nonneg_witness :
    (⟨1, ⟨2025, 1, 1⟩, "ADJUST_DOWN", 5, "【上帝模式强控】d"⟩ : DBTransaction) ∈
        initialState.transactions ∨
      (0 : ℚ) ≤ (⟨1, ⟨2025, 1, 1⟩, "ADJUST_DOWN", 5, "【上帝模式强控】d"⟩ : DBTransaction).amount :=
  (adjust_claim_txs_nonneg initialState ⟨2025, 1, 1⟩ 0 "DOWN" 5 "d").1 _ (by decide)

/-- Claim C10: the `action` argument of `adjust_funds` is never
validated — for every direction other than `"UP"` and every positive
amount, an ADJUST_DOWN transaction of that amount is recorded (no
rejection). -/
theorem adjust_unrecognized_direction (st : FundState) (today : PyDate)
    (action : String) (amount : ℚ) (descr : String)
    (hne : action ≠ "UP") (hpos : 0 < amount) :
    gp_adjust_funds st today action amount descr =
      ⟨{ st with transactions := st.transactions ++ [⟨st.transactions.length + 1, today, "ADJUST_DOWN", amount, "【上帝模式强控】" ++ descr⟩] }, none⟩ := by
  rw [gp_adjust_funds, if_neg (not_le.2 hpos), adjustTx, if_neg hne]

/-- Witness for C10: a nonsense direction is treated as DOWN. -/
theorem adjust_unrecognized_direction_witness :
    gp_adjust_funds initialState ⟨2025, 1, 1⟩ "SIDEWAYS" 7 "oops" =
      ⟨{ initialState with transactions := initialState.transactions ++ [⟨initialState.transactions.length + 1, ⟨2025, 1, 1⟩, "ADJUST_DOWN", 7, "【上帝模式强控】" ++ "oops"⟩] }, none⟩ :=
  adjust_unrecognized_direction initialState ⟨2025, 1, 1⟩ "SIDEWAYS" 7 "oops"
    (by decide) (by norm_num)

/-! ## Claim C6: the claim window lifecycle -/

/-- Computing `updateLast` on a list with an exposed last element. -/
theorem updateLast_concat {α : Type} (f : α → α) :
    ∀ (xs : List α) (a : α), updateLast f (xs ++ [a]) = xs ++ [f a]
  | [], _ => rfl
  | [_], _ => rfl
  | x :: y :: rest, a => by
    show x :: updateLast f ((y :: rest) ++ [a]) = x :: ((y :: rest) ++ [f a])
    rw [updateLast_concat f (y :: rest) a]

/-- Claim C6: the claim operation succeeds at most once per issuance.
With the latest event ACTIVE and within 72 hours of issuance, a claim
marks it CLAIMED and appends exactly one QUARTERLY_PAYOUT transaction of
amount 30.0; a second claim on the resulting state fails with
NO_ACTIVE_WINDOW and changes nothing; a claim at `issued_at + 73` hours
fails with WINDOW_EXPIRED, marks the event EXPIRED as a side effect, and
appends no transaction. -/
theorem claim_quarterly_lifecycle (st : FundState)
    (evs : List DBQuarterlyEvent) (e : DBQuarterlyEvent)
    (now1 now2 : ℚ) (today1 today2 : PyDate)
    (hev : st.events = evs ++ [e]) (hact : e.status = "ACTIVE")
    (hin : now1 ≤ e.issued_at + 72) :
    claim_quarterly st now1 today1 =
      ⟨{ st with events := evs ++ [claimEvent now1 e], transactions := st.transactions ++ [payoutTx st today1] }, none⟩ ∧
    claim_quarterly (claim_quarterly st now1 today1).state now2 today2 =
      ⟨(claim_quarterly st now1 today1).state, some ApiError.NO_ACTIVE_WINDOW⟩ ∧
    claim_quarterly st (e.issued_at + 73) today2 =
      ⟨{ st with events := evs ++ [expireEvent e] }, some ApiError.WINDOW_EXPIRED⟩ := by
  have hlast : st.events.getLast? = some e := by
    rw [hev]
    exact List.getLast?_concat evs
  have h1 : claim_quarterly st now1 today1 =
      ⟨{ st with events := evs ++ [claimEvent now1 e], transactions := st.transactions ++ [payoutTx st today1] }, none⟩ := by
    rw [claim_quarterly, hlast]
    dsimp only
    rw [if_neg (by simp [hact]), if_neg (not_lt.2 hin), hev, updateLast_concat]
  refine ⟨h1, ?_, ?_⟩
  · rw [h1]
    dsimp only
    have hlast2 : (evs ++ [claimEvent now1 e]).getLast? = some (claimEvent now1 e) :=
      List.getLast?_concat evs
    rw [claim_quarterly]
    dsimp only
    rw [hlast2]
    dsimp only
    rw [if_pos (by simp [claimEvent])]
  · rw [claim_quarterly, hlast]
    dsimp only
    rw [if_neg (by simp [hact]), if_pos (by linarith), hev, updateLast_concat]

/-- The single ACTIVE event of the C6 witness state. -/
def evC6 : DBQuarterlyEvent := ⟨1, 0, "ACTIVE", none⟩

/-- The C6 witness state: one ACTIVE event issued at hour 0. -/
def stC6 : FundState := ⟨[], [], [evC6]⟩

/-- Witness for C6 at a concrete state, claiming at hour 10 (within the
window) and re-claiming at hour 20, plus the expired attempt at hour 73. -/
theorem claim_quarterly_lifecycle_witness :
    claim_quarterly stC6 10 ⟨2025, 1, 1⟩ =
      ⟨{ stC6 with events := [] ++ [claimEvent 10 evC6], transactions := stC6.transactions ++ [payoutTx stC6 ⟨2025, 1, 1⟩] }, none⟩ ∧
    claim_quarterly (claim_quarterly stC6 10 ⟨2025, 1, 1⟩).state 20 ⟨2025, 1, 2⟩ =
      ⟨(claim_quarterly stC6 10 ⟨2025, 1, 1⟩).state, some ApiError.NO_ACTIVE_WINDOW⟩ ∧
    claim_quarterly stC6 (evC6.issued_at + 73) ⟨2025, 1, 2⟩ =
      ⟨{ stC6 with events := [] ++ [expireEvent evC6] }, some ApiError.WINDOW_EXPIRED⟩ :=
  claim_quarterly_lifecycle stC6 [] evC6 10 20 ⟨2025, 1, 1⟩ ⟨2025, 1, 2⟩ rfl rfl
    (by norm_num [evC6])

/-! ## Claim C7: at most one ACTIVE quarterly event -/

/-- The number of ACTIVE rows in the events table. -/
def countActive (evs : List DBQuarterlyEvent) : ℕ :=
  (evs.filter (fun e => decide (e.status = "ACTIVE"))).length

theorem countActive_append (l1 l2 : List DBQuarterlyEvent) :
    countActive (l1 ++ l2) = countActive l1 + countActive l2 := by
  simp [countActive, List.filter_append]

/-- Expiring the loop of `toggle_quarterly` leaves no ACTIVE row. -/
theorem countActive_map_toggleExpire (l : List DBQuarterlyEvent) :
    countActive (l.map toggleExpire) = 0 := by
  induction l with
  | nil => rfl
  | cons e l ih =>
    have hne : ((toggleExpire e).status = "ACTIVE") = False := by
      rw [toggleExpire]
      split
      · simp [expireEvent]
      · simpa using (by assumption : ¬ e.status = "ACTIVE")
    simp only [List.map_cons, countActive, List.filter_cons, hne, decide_False]
    exact ih

/-- Replacing the last row by a non-ACTIVE row cannot increase the
ACTIVE count. -/
theorem countActive_updateLast_le (f : DBQuarterlyEvent → DBQuarterlyEvent)
    (hf : ∀ e, (f e).status ≠ "ACTIVE") (l : List DBQuarterlyEvent) :
    countActive (updateLast f l) ≤ countActive l := by
  cases hl : l with
  | nil => exact le_refl _
  | cons a as =>
    have hne : (a :: as) ≠ [] := by simp
    rw [← List.dropLast_append_getLast hne, updateLast_concat,
      countActive_append, countActive_append]
    have h0 : countActive [f ((a :: as).getLast hne)] = 0 := by
      simp [countActive, hf]
    rw [h0]
    exact Nat.add_le_add_left (Nat.zero_le _) _

theorem lp_request_withdrawal_events (st : FundState) (today : PyDate)
    (amount : ℚ) (reason : String) :
    (lp_request_withdrawal st today amount reason).state.events = st.events := by
  rw [lp_request_withdrawal]
  split <;> rfl

theorem gp_adjust_funds_events (st : FundState) (today : PyDate)
    (action : String) (amount : ℚ) (descr : String) :
    (gp_adjust_funds st today action amount descr).state.events = st.events := by
  rw [gp_adjust_funds]
  split <;> rfl

theorem gp_process_request_events (st : FundState) (today : PyDate)
    (req_id : ℕ) (action : String) (final_amount : ℚ) (reject_reason : String) :
    (gp_process_request st today req_id action final_amount reject_reason).state.events =
      st.events := by
  rw [gp_process_request]
  cases st.requests.find? (fun r => r.id == req_id) with
  | none =>
    dsimp only
    split <;> rfl
  | some req =>
    dsimp only
    split
    · rfl
    · split <;> rfl

/-- The events table after a claim: unchanged, or the last row expired
or claimed. -/
theorem claim_quarterly_events (st : FundState) (now : ℚ) (today : PyDate) :
    (claim_quarterly st now today).state.events = st.events ∨
    (claim_quarterly st now today).state.events = updateLast expireEvent st.events ∨
    (claim_quarterly st now today).state.events =
      updateLast (claimEvent now) st.events := by
  cases hev : st.events.getLast? with
  | none => rw [claim_quarterly, hev]; exact Or.inl rfl
  | some ev =>
    rw [claim_quarterly, hev]
    dsimp only
    split
    · exact Or.inl rfl
    · split
      · exact Or.inr (Or.inl rfl)
      · exact Or.inr (Or.inr rfl)

/-- The events table after an info read: unchanged or the last row
expired. -/
theorem get_quarterly_info_events (st : FundState) (now : ℚ) :
    (get_quarterly_info st now).1.events = st.events ∨
    (get_quarterly_info st now).1.events = updateLast expireEvent st.events := by
  cases hev : st.events.getLast? with
  | none => rw [get_quarterly_info, hev]; exact Or.inl rfl
  | some ev =>
    rw [get_quarterly_info, hev]
    dsimp only
    split
    · exact Or.inr rfl
    · split
      · exact Or.inl rfl
      · split
        · exact Or.inl rfl
        · exact Or.inl rfl

theorem expireEvent_not_active (e : DBQuarterlyEvent) :
    (expireEvent e).status ≠ "ACTIVE" := by
  simp [expireEvent]

theorem claimEvent_not_active (now : ℚ) (e : DBQuarterlyEvent) :
    (claimEvent now e).status ≠ "ACTIVE" := by
  simp [claimEvent]

/-- Claim C7: in every reachable state at most one quarterly event is
ACTIVE — `toggle_quarterly` expires every ACTIVE row before inserting
the new one, and no other operation (claim, lazy expiry on read) ever
sets a status to ACTIVE. -/
theorem at_most_one_active (st : FundState) (h : Reachable st) :
    countActive st.events ≤ 1 := by
  induction h with
  | init => exact Nat.zero_le 1
  | withdraw st today amount reason _ ih =>
    rw [lp_request_withdrawal_events]
    exact ih
  | alpha st today reason filename _ ih => exact ih
  | inject st today amount tx_type descr _ ih => exact ih
  | adjust st today action amount descr _ ih =>
    rw [gp_adjust_funds_events]
    exact ih
  | toggle st now _ _ =>
    show countActive ((st.events.map toggleExpire) ++ [⟨st.events.length + 1, now, "ACTIVE", none⟩]) ≤ 1
    rw [countActive_append, countActive_map_toggleExpire]
    simp [countActive]
  | claim st now today _ ih =>
    rcases claim_quarterly_events st now today with hE | hE | hE <;> rw [hE]
    · exact ih
    · exact le_trans (countActive_updateLast_le expireEvent expireEvent_not_active st.events) ih
    · exact le_trans (countActive_updateLast_le (claimEvent now) (claimEvent_not_active now) st.events) ih
  | info st now _ ih =>
    rcases get_quarterly_info_events st now with hE | hE <;> rw [hE]
    · exact ih
    · exact le_trans (countActive_updateLast_le expireEvent expireEvent_not_active st.events) ih
  | adjudicate st today req_id action final_amount reject_reason _ ih =>
    rw [gp_process_request_events]
    exact ih

/-- Witness for C7: the state after one toggle is reachable and has one
ACTIVE event. -/
theorem at_most_one_active_witness :
    countActive (toggle_quarterly initialState 0).state.events ≤ 1 :=
  at_most_one_active _ (Reachable.toggle initialState 0 Reachable.init)

/-! ## Claim C5: the processing order of equal-date transactions -/

/-- The withdrawal of the C5 history (dated before the tied inflows). -/
def txTieW : DBTransaction := ⟨1, ⟨2025, 2, 1⟩, "WITHDRAWAL", 30, "w"⟩

/-- The PRINCIPAL inflow of the C5 history's date tie. -/
def txTieP : DBTransaction := ⟨2, ⟨2025, 2, 5⟩, "PRINCIPAL", 50, "p"⟩

/-- The ALPHA inflow of the C5 history's date tie, inserted after the
PRINCIPAL one and dated the same day. -/
def txTieA : DBTransaction := ⟨3, ⟨2025, 2, 5⟩, "ALPHA", 50, "a"⟩

/-- A stored history with two inflows sharing a date. -/
def historyTie : List DBTransaction := [txTieW, txTieP, txTieA]

/-- The `(date, id)`-ascending ordering of `historyTie` — the order the
spec requires the engine to process. -/
def orderTieA : List DBTransaction := [txTieW, txTieP, txTieA]

/-- The same rows with the equal-date pair swapped — equally admissible
under the query's date-only `ORDER BY`. -/
def orderTieB : List DBTransaction := [txTieW, txTieA, txTieP]

/-- Claim C5 (the spec is the intent; the code diverges): the spec
requires the history to be processed ascending by `(date, id)`, which
would make the NAV — including the principal/alpha split — a function
of the stored history.  The query at Main.py:119 orders by `tx_date`
only, and SQLite leaves the relative order of equal-date rows
undefined; this theorem evaluates the engine's pipeline at the failing
input: both `orderTieA` (the `(date, id)` order) and `orderTieB` (the
date tie swapped) satisfy the query's contract for `historyTie`, yet
they yield principal/alpha splits of 20/50 versus 50/20 — so the code
does not establish the claimed tie order or the claimed uniqueness, for
any accrual function. -/
theorem nav_tie_order_dependence :
    DateSortedOf historyTie orderTieA ∧
    DateSortedOf historyTie orderTieB ∧
    orderTieA.Pairwise dateIdLT ∧
    ¬ orderTieB.Pairwise dateIdLT ∧
    (∀ g : ℤ → ℚ,
      (calculate_system_nav_on g orderTieA ⟨2025, 2, 5⟩).effective_principal = 20 ∧
      (calculate_system_nav_on g orderTieA ⟨2025, 2, 5⟩).total_alpha = 50 ∧
      (calculate_system_nav_on g orderTieB ⟨2025, 2, 5⟩).effective_principal = 50 ∧
      (calculate_system_nav_on g orderTieB ⟨2025, 2, 5⟩).total_alpha = 20) := by
  refine ⟨by decide, by decide, by decide, by decide, ?_⟩
  intro g
  have hdP : PyDate.toordinal ⟨2025, 2, 5⟩ - PyDate.toordinal txTieP.tx_date = 0 := by decide
  have hdA : PyDate.toordinal ⟨2025, 2, 5⟩ - PyDate.toordinal txTieA.tx_date = 0 := by decide
  have hcP : consume txTieP.amount [30] = (20, []) := by
    show consume 50 [30] = (20, [])
    norm_num [consume]
  have hcA : consume txTieA.amount [30] = (20, []) := by
    show consume 50 [30] = (20, [])
    norm_num [consume]
  have hcP' : consume txTieP.amount [] = (50, []) := rfl
  have hcA' : consume txTieA.amount [] = (50, []) := rfl
  have hrA : navInflowResults g (PyDate.toordinal ⟨2025, 2, 5⟩) [txTieP, txTieA] [30] =
      [⟨txTieP, 20, 20 * g 0⟩, ⟨txTieA, 50, 50 * g 0⟩] := by
    rw [navInflowResults, if_neg (by rw [hdP]; norm_num), hcP, hdP]
    rw [navInflowResults, if_neg (by rw [hdA]; norm_num), hcA', hdA]
    rw [navInflowResults]
  have hrB : navInflowResults g (PyDate.toordinal ⟨2025, 2, 5⟩) [txTieA, txTieP] [30] =
      [⟨txTieA, 20, 20 * g 0⟩, ⟨txTieP, 50, 50 * g 0⟩] := by
    rw [navInflowResults, if_neg (by rw [hdA]; norm_num), hcA, hdA]
    rw [navInflowResults, if_neg (by rw [hdP]; norm_num), hcP', hdP]
    rw [navInflowResults]
  have hfA1 : orderTieA.filter (fun t => decide (t.tx_type ∈ inKinds)) = [txTieP, txTieA] := by decide
  have hfA2 : (orderTieA.filter (fun t => decide (t.tx_type ∈ wdKinds))).map (fun t => t.amount) = [30] := by decide
  have hfB1 : orderTieB.filter (fun t => decide (t.tx_type ∈ inKinds)) = [txTieA, txTieP] := by decide
  have hfB2 : (orderTieB.filter (fun t => decide (t.tx_type ∈ wdKinds))).map (fun t => t.amount) = [30] := by decide
  have hsA : ("ALPHA" = "PRINCIPAL" ∨ "ALPHA" = "ADJUST_UP") = False := by
    simp only [eq_iff_iff, iff_false]
    decide
  have hsP : ("PRINCIPAL" = "PRINCIPAL" ∨ "PRINCIPAL" = "ADJUST_UP") = True := by
    simp only [eq_iff_iff, iff_true]
    decide
  have hsA2 : (¬ "ALPHA" = "PRINCIPAL" ∧ ¬ "ALPHA" = "ADJUST_UP") = True := by
    simp only [eq_iff_iff, iff_true]
    decide
  have hsP2 : (¬ "PRINCIPAL" = "PRINCIPAL" ∧ ¬ "PRINCIPAL" = "ADJUST_UP") = False := by
    simp only [eq_iff_iff, iff_false]
    decide
  refine ⟨?_, ?_, ?_, ?_⟩ <;>
    simp only [calculate_system_nav_on, hfA1, hfA2, hfB1, hfB2, hrA, hrB] <;>
    norm_num [txTieP, txTieA, principalKinds, roundTo_eq, List.filter_cons,
      List.filter_nil, List.map_cons, List.map_nil, List.sum_cons, List.sum_nil,
      hsA, hsP, hsA2, hsP2]

end FundMonitor
